import Mathlib

/-!
Verification of the utouch USB absolute-pointer driver's core
(src/utouch.c): the descriptor capability scanner (utouch_hid_test),
the capability extractor (utouch_hid_parse) and the interrupt report
decoder (utouch_intr_callback), shallowly embedded over the stream of
typed HID descriptor items.

The HID item reader (hid_start_parse / hid_get_item), the field lookup
hid_locate, the resolution computation hid_item_resolution and the
bit-field extractor hid_get_data live in the host's usb_hid layer, not
in this repository; they are modelled from the specification's
description of the item-reader interface.  A descriptor is therefore
represented as the list of items the reader yields: collection-open,
collection-close, and input-field items.
-/

namespace Utouch

/-- Main-item flag bit: constant (bit 0), from usbhid.h. -/
def HIO_CONST : Nat := 1

/-- Main-item flag bit: variable (bit 1), from usbhid.h. -/
def HIO_VARIABLE : Nat := 2

/-- Main-item flag bit: relative (bit 2), from usbhid.h. -/
def HIO_RELATIVE : Nat := 4

/-- Usage page: generic desktop. -/
def HUP_GENERIC_DESKTOP : Nat := 1

/-- Usage page: buttons. -/
def HUP_BUTTON : Nat := 9

/-- Generic-desktop usage: mouse. -/
def HUG_MOUSE : Nat := 2

/-- Generic-desktop usage: X axis. -/
def HUG_X : Nat := 0x30

/-- Generic-desktop usage: Y axis. -/
def HUG_Y : Nat := 0x31

/-- Generic-desktop usage: wheel. -/
def HUG_WHEEL : Nat := 0x38

/-- Generic-desktop usage: tilt wheel. -/
def HUG_TWHEEL : Nat := 0x238

/-- Combined 32-bit usage code: page in the high 16 bits. -/
def HID_USAGE2 (page usage : Nat) : Nat := page <<< 16 ||| usage

/-- softc flag bit: an X axis capability was found. -/
def UTOUCH_FLAG_X_AXIS : Nat := 1

/-- softc flag bit: a Y axis capability was found. -/
def UTOUCH_FLAG_Y_AXIS : Nat := 2

/-- softc flag bit: a wheel (Z) capability was found. -/
def UTOUCH_FLAG_Z_AXIS : Nat := 4

/-- Maximum number of buttons the softc tracks. -/
def UTOUCH_BUTTON_MAX : Nat := 8

/-- Size of the interrupt transfer bounce buffer sc_temp. -/
def UTOUCH_BUFFER_MAX : Nat := 64

/-- Where a field lives inside a report: struct hid_location. -/
structure hid_location where
  pos : Nat
  size : Nat
  count : Nat
deriving DecidableEq

/-- The all-zero location (the softc is zero-initialized). -/
def loc_zero : hid_location := ⟨0, 0, 0⟩

/-- The kind of a descriptor item the HID item reader yields. -/
inductive HidKind where
  | collection
  | endcollection
  | input
deriving DecidableEq

/-- One typed descriptor item, the fields of struct hid_item the driver
reads.  The res field carries the value hid_item_resolution would
compute for the item (that computation is host code outside this
repository; the spec says it is a unit-exponent conversion, 0 when the
descriptor supplies no unit information). -/
structure hid_item where
  kind : HidKind
  collection : Nat
  usage : Nat
  flags : Nat
  report_ID : Nat
  logical_minimum : Int
  logical_maximum : Int
  loc : hid_location
  res : Int
deriving DecidableEq

/-- struct utouch_absinfo. -/
structure utouch_absinfo where
  min : Int
  max : Int
  res : Int
deriving DecidableEq

/-- The capability state of struct utouch_softc: the fields utouch_hid_parse
writes and utouch_intr_callback reads.  The button arrays of size
UTOUCH_BUTTON_MAX are modelled as functions from the index. -/
structure utouch_softc where
  sc_loc_x : hid_location
  sc_loc_y : hid_location
  sc_loc_z : hid_location
  sc_loc_btn : Nat → hid_location
  sc_ai_x : utouch_absinfo
  sc_ai_y : utouch_absinfo
  sc_iid_x : Nat
  sc_iid_y : Nat
  sc_iid_z : Nat
  sc_iid_btn : Nat → Nat
  sc_nbuttons : Nat
  sc_flags : Nat

/-- The zero-initialized softc the device framework hands to attach. -/
def utouch_softc_init : utouch_softc :=
  { sc_loc_x := loc_zero
    sc_loc_y := loc_zero
    sc_loc_z := loc_zero
    sc_loc_btn := fun _ => loc_zero
    sc_ai_x := ⟨0, 0, 0⟩
    sc_ai_y := ⟨0, 0, 0⟩
    sc_iid_x := 0
    sc_iid_y := 0
    sc_iid_z := 0
    sc_iid_btn := fun _ => 0
    sc_nbuttons := 0
    sc_flags := 0 }

/-- Eligibility test utouch_hid_test and utouch_hid_parse apply to an X
input item: usage is generic-desktop X and, of the const/variable/relative
flag bits, exactly the variable bit is set. -/
def eligX (hi : hid_item) : Bool :=
  hi.usage == HID_USAGE2 HUP_GENERIC_DESKTOP HUG_X &&
    hi.flags &&& (HIO_CONST ||| HIO_VARIABLE ||| HIO_RELATIVE) == HIO_VARIABLE

/-- Same eligibility test for a Y input item. -/
def eligY (hi : hid_item) : Bool :=
  hi.usage == HID_USAGE2 HUP_GENERIC_DESKTOP HUG_Y &&
    hi.flags &&& (HIO_CONST ||| HIO_VARIABLE ||| HIO_RELATIVE) == HIO_VARIABLE

/-- The while loop of utouch_hid_test: mdepth is the mouse-collection
depth counter, found the running count of eligible X/Y fields. -/
def utouch_hid_test_loop : List hid_item → Nat → Nat → Nat
  | [], _, found => found
  | hi :: rest, mdepth, found =>
    match hi.kind with
    | HidKind.collection =>
      if mdepth ≠ 0 then
        utouch_hid_test_loop rest (mdepth + 1) found
      else if hi.collection = 1 ∧
          hi.usage = HID_USAGE2 HUP_GENERIC_DESKTOP HUG_MOUSE then
        utouch_hid_test_loop rest (mdepth + 1) found
      else
        utouch_hid_test_loop rest mdepth found
    | HidKind.endcollection =>
      if mdepth ≠ 0 then
        utouch_hid_test_loop rest (mdepth - 1) found
      else
        utouch_hid_test_loop rest mdepth found
    | HidKind.input =>
      if mdepth = 0 then
        utouch_hid_test_loop rest mdepth found
      else
        utouch_hid_test_loop rest mdepth
          ((if eligX hi then found + 1 else found) +
            (if eligY hi then 1 else 0))

/-- utouch_hid_test: walks the item stream and returns the found counter.
The probe (utouch_probe) treats a nonzero return as a successful match. -/
def utouch_hid_test (items : List hid_item) : Nat :=
  utouch_hid_test_loop items 0 0

/-- The input-item body of utouch_hid_parse's main loop: overwrite the X
slot when the item is an eligible X field, then the Y slot when it is an
eligible Y field. -/
def utouch_parse_input (sc : utouch_softc) (hi : hid_item) : utouch_softc :=
  let sc1 :=
    if eligX hi then
      { sc with
        sc_flags := sc.sc_flags ||| UTOUCH_FLAG_X_AXIS
        sc_loc_x := hi.loc
        sc_iid_x := hi.report_ID
        sc_ai_x := ⟨hi.logical_minimum, hi.logical_maximum, hi.res⟩ }
    else sc
  if eligY hi then
    { sc1 with
      sc_flags := sc1.sc_flags ||| UTOUCH_FLAG_Y_AXIS
      sc_loc_y := hi.loc
      sc_iid_y := hi.report_ID
      sc_ai_y := ⟨hi.logical_minimum, hi.logical_maximum, hi.res⟩ }
  else sc1

/-- The while loop of utouch_hid_parse: the same depth automaton as the
scanner, recording eligible X/Y fields into the softc. -/
def utouch_hid_parse_loop : List hid_item → Nat → utouch_softc → utouch_softc
  | [], _, sc => sc
  | hi :: rest, mdepth, sc =>
    match hi.kind with
    | HidKind.collection =>
      if mdepth ≠ 0 then
        utouch_hid_parse_loop rest (mdepth + 1) sc
      else if hi.collection = 1 ∧
          hi.usage = HID_USAGE2 HUP_GENERIC_DESKTOP HUG_MOUSE then
        utouch_hid_parse_loop rest (mdepth + 1) sc
      else
        utouch_hid_parse_loop rest mdepth sc
    | HidKind.endcollection =>
      if mdepth ≠ 0 then
        utouch_hid_parse_loop rest (mdepth - 1) sc
      else
        utouch_hid_parse_loop rest mdepth sc
    | HidKind.input =>
      if mdepth = 0 then
        utouch_hid_parse_loop rest mdepth sc
      else
        utouch_hid_parse_loop rest mdepth (utouch_parse_input sc hi)

/-- Modelled from the spec: hid_locate is host usb_hid code, described as
locating the first input field of the descriptor carrying the given
usage, with no collection-depth restriction; it yields the field's
location, flags and report ID.  Here it returns the first input item of
the stream with that usage. -/
def hid_locate (items : List hid_item) (u : Nat) : Option hid_item :=
  items.find? fun hi => decide (hi.kind = HidKind.input ∧ hi.usage = u)

/-- The wheel lookup of utouch_hid_parse: generic-desktop wheel first,
tilt wheel as the fallback; on a hit record location and report ID, and
set the Z-axis flag only when the variable flag bit is set. -/
def utouch_parse_wheel (items : List hid_item) (sc : utouch_softc) :
    utouch_softc :=
  match hid_locate items (HID_USAGE2 HUP_GENERIC_DESKTOP HUG_WHEEL) with
  | some hi =>
    let sc1 := { sc with sc_loc_z := hi.loc, sc_iid_z := hi.report_ID }
    if hi.flags &&& HIO_VARIABLE ≠ 0 then
      { sc1 with sc_flags := sc1.sc_flags ||| UTOUCH_FLAG_Z_AXIS }
    else sc1
  | none =>
    match hid_locate items (HID_USAGE2 HUP_GENERIC_DESKTOP HUG_TWHEEL) with
    | some hi =>
      let sc1 := { sc with sc_loc_z := hi.loc, sc_iid_z := hi.report_ID }
      if hi.flags &&& HIO_VARIABLE ≠ 0 then
        { sc1 with sc_flags := sc1.sc_flags ||| UTOUCH_FLAG_Z_AXIS }
      else sc1
    | none => sc

/-- The button loop of utouch_hid_parse: probe button usages i+1 upward
while indices remain (fuel counts the remaining loop iterations,
UTOUCH_BUTTON_MAX - i), stop at the first usage with no matching field,
record the count in sc_nbuttons. -/
def utouch_parse_btns (items : List hid_item) :
    Nat → Nat → utouch_softc → utouch_softc
  | i, 0, sc => { sc with sc_nbuttons := i }
  | i, fuel + 1, sc =>
    match hid_locate items (HID_USAGE2 HUP_BUTTON (i + 1)) with
    | some hi =>
      utouch_parse_btns items (i + 1) fuel
        { sc with
          sc_loc_btn := fun j => if j = i then hi.loc else sc.sc_loc_btn j
          sc_iid_btn := fun j => if j = i then hi.report_ID else sc.sc_iid_btn j }
    | none => { sc with sc_nbuttons := i }

/-- utouch_hid_parse: main X/Y loop over the item stream, then the wheel
lookup, then the button loop, starting from the zero-initialized softc. -/
def utouch_hid_parse (items : List hid_item) : utouch_softc :=
  utouch_parse_btns items 0 UTOUCH_BUTTON_MAX
    (utouch_parse_wheel items (utouch_hid_parse_loop items 0 utouch_softc_init))

/-- The axis tag of an absolute-move event. -/
inductive Axis where
  | X
  | Y
deriving DecidableEq

/-- One normalized pointer event pushed to the evdev sink: evdev_push_abs,
evdev_push_rel, evdev_push_key and evdev_sync in the interrupt callback. -/
inductive PointerEvent where
  | AbsMove (axis : Axis) (value : Int)
  | RelMove (value : Int)
  | Button (index : Nat) (value : Int)
  | Sync
deriving DecidableEq

/-- Bit n of the byte buffer, least-significant-bit-first within each byte;
bytes past the end read as zero (hid_get_data ignores bytes at or past len). -/
def hid_get_bit (buf : List Nat) (n : Nat) : Nat :=
  (buf.getD (n / 8) 0 >>> (n % 8)) &&& 1

/-- Modelled from the spec: hid_get_data is host usb_hid code; the spec's
numeric semantics read loc.size bits at bit offset loc.pos, LSB-first,
assembling a little-endian integer, with sign interpretation of the
extracted field (the location does not carry the logical minimum, so the
two's-complement top bit of the field decides the sign, as in the host's
signed extractor). -/
def hid_get_data (buf : List Nat) (loc : hid_location) : Int :=
  if loc.size = 0 then 0
  else
    let raw : Nat :=
      (List.range loc.size).foldl
        (fun acc k => acc ||| (hid_get_bit buf (loc.pos + k) <<< k)) 0
    if hid_get_bit buf (loc.pos + loc.size - 1) = 1 then
      (raw : Int) - (2 : Int) ^ loc.size
    else (raw : Int)

/-- The event-producing part of the interrupt callback, after the report
ID byte has (or has not) been consumed: id is the match key, buf the
effective buffer.  The X, Y and wheel fields are pushed when present and
matching, then each tracked button, then the sync. -/
def utouch_decode_body (sc : utouch_softc) (id : Nat) (buf : List Nat) :
    List PointerEvent :=
  (if sc.sc_flags &&& UTOUCH_FLAG_X_AXIS ≠ 0 ∧ id = sc.sc_iid_x then
    [PointerEvent.AbsMove Axis.X (hid_get_data buf sc.sc_loc_x)]
  else []) ++
  (if sc.sc_flags &&& UTOUCH_FLAG_Y_AXIS ≠ 0 ∧ id = sc.sc_iid_y then
    [PointerEvent.AbsMove Axis.Y (hid_get_data buf sc.sc_loc_y)]
  else []) ++
  (if sc.sc_flags &&& UTOUCH_FLAG_Z_AXIS ≠ 0 ∧ id = sc.sc_iid_z then
    [PointerEvent.RelMove (hid_get_data buf sc.sc_loc_z)]
  else []) ++
  (List.range sc.sc_nbuttons).filterMap (fun i =>
    if id = sc.sc_iid_btn i then
      some (PointerEvent.Button i (hid_get_data buf (sc.sc_loc_btn i)))
    else none) ++
  [PointerEvent.Sync]

/-- The USB_ST_TRANSFERRED path of utouch_intr_callback as a pure
function of the capability state and the raw report bytes: truncate an
oversized transfer to the bounce buffer size, drop a zero-length
transfer, consume the leading report-ID byte exactly when the X or Y
report ID is nonzero, then push the matching fields and the sync. -/
def utouch_decode (sc : utouch_softc) (report : List Nat) :
    List PointerEvent :=
  let len := if report.length > UTOUCH_BUFFER_MAX then UTOUCH_BUFFER_MAX
    else report.length
  if len = 0 then []
  else
    let buf0 := report.take len
    let idbuf := if 0 < sc.sc_iid_x ∨ 0 < sc.sc_iid_y then
        (buf0.headD 0, buf0.tail)
      else (0, buf0)
    let id := idbuf.1
    let buf := idbuf.2
    (if sc.sc_flags &&& UTOUCH_FLAG_X_AXIS ≠ 0 ∧ id = sc.sc_iid_x then
      [PointerEvent.AbsMove Axis.X (hid_get_data buf sc.sc_loc_x)]
    else []) ++
    (if sc.sc_flags &&& UTOUCH_FLAG_Y_AXIS ≠ 0 ∧ id = sc.sc_iid_y then
      [PointerEvent.AbsMove Axis.Y (hid_get_data buf sc.sc_loc_y)]
    else []) ++
    (if sc.sc_flags &&& UTOUCH_FLAG_Z_AXIS ≠ 0 ∧ id = sc.sc_iid_z then
      [PointerEvent.RelMove (hid_get_data buf sc.sc_loc_z)]
    else []) ++
    (List.range sc.sc_nbuttons).filterMap (fun i =>
      if id = sc.sc_iid_btn i then
        some (PointerEvent.Button i (hid_get_data buf (sc.sc_loc_btn i)))
      else none) ++
    [PointerEvent.Sync]

/-!
Reference definitions on the item stream, used to state what the scanner
and extractor compute: the inputs in mouse-collection scope, and the
eligible X/Y fields among them.
-/

/-- The input items of the stream lying inside a mouse-collection scope,
under the same depth automaton both source walks use: a top-level
application collection with the mouse usage opens the scope, any nested
collection deepens it. -/
def mouseScopeInputs : List hid_item → Nat → List hid_item
  | [], _ => []
  | hi :: rest, mdepth =>
    match hi.kind with
    | HidKind.collection =>
      if mdepth ≠ 0 then
        mouseScopeInputs rest (mdepth + 1)
      else if hi.collection = 1 ∧
          hi.usage = HID_USAGE2 HUP_GENERIC_DESKTOP HUG_MOUSE then
        mouseScopeInputs rest (mdepth + 1)
      else
        mouseScopeInputs rest mdepth
    | HidKind.endcollection =>
      if mdepth ≠ 0 then
        mouseScopeInputs rest (mdepth - 1)
      else
        mouseScopeInputs rest mdepth
    | HidKind.input =>
      if mdepth = 0 then
        mouseScopeInputs rest mdepth
      else
        hi :: mouseScopeInputs rest mdepth

/-- The eligible X input fields in mouse-collection scope, in descriptor
order. -/
def eligibleXFields (items : List hid_item) : List hid_item :=
  (mouseScopeInputs items 0).filter eligX

/-- The eligible Y input fields in mouse-collection scope, in descriptor
order. -/
def eligibleYFields (items : List hid_item) : List hid_item :=
  (mouseScopeInputs items 0).filter eligY

/-- Whether the wheel lookup ends with the variable flag set: the
generic-desktop wheel field if one exists, else the tilt-wheel field,
must carry HIO_VARIABLE. -/
def wheelVariable (items : List hid_item) : Bool :=
  match hid_locate items (HID_USAGE2 HUP_GENERIC_DESKTOP HUG_WHEEL) with
  | some hi => decide (hi.flags &&& HIO_VARIABLE ≠ 0)
  | none =>
    match hid_locate items (HID_USAGE2 HUP_GENERIC_DESKTOP HUG_TWHEEL) with
    | some hi => decide (hi.flags &&& HIO_VARIABLE ≠ 0)
    | none => false

/-!
Decoder lemmas.
-/

/-- After truncation the effective buffer is always the first
UTOUCH_BUFFER_MAX bytes of the report. -/
theorem take_trunc_len (r : List Nat) :
    r.take (if r.length > UTOUCH_BUFFER_MAX then UTOUCH_BUFFER_MAX
      else r.length) = r.take UTOUCH_BUFFER_MAX := by
  split
  · rfl
  · next h2 => rw [List.take_length, List.take_of_length_le (by omega)]

/-- On a non-empty report the decoder is the event body applied either to
the consumed leading byte and the remaining buffer (when the X or Y
report ID is nonzero) or to match key 0 and the whole truncated buffer. -/
theorem utouch_decode_eq_body (sc : utouch_softc) (r : List Nat)
    (h : 0 < r.length) :
    utouch_decode sc r =
      if 0 < sc.sc_iid_x ∨ 0 < sc.sc_iid_y then
        utouch_decode_body sc ((r.take UTOUCH_BUFFER_MAX).headD 0)
          (r.take UTOUCH_BUFFER_MAX).tail
      else utouch_decode_body sc 0 (r.take UTOUCH_BUFFER_MAX) := by
  have hlen : ¬(if r.length > UTOUCH_BUFFER_MAX then UTOUCH_BUFFER_MAX
      else r.length) = 0 := by
    split
    · simp [UTOUCH_BUFFER_MAX]
    · omega
  simp only [utouch_decode, utouch_decode_body]
  rw [if_neg hlen, take_trunc_len]
  split <;> rfl

/-- The event body is a list of non-sync data events followed by exactly
one sync event. -/
theorem utouch_decode_body_shape (sc : utouch_softc) (id : Nat)
    (buf : List Nat) :
    ∃ evs, utouch_decode_body sc id buf = evs ++ [PointerEvent.Sync] ∧
      ∀ e ∈ evs, e ≠ PointerEvent.Sync := by
  refine ⟨(if sc.sc_flags &&& UTOUCH_FLAG_X_AXIS ≠ 0 ∧ id = sc.sc_iid_x then
      [PointerEvent.AbsMove Axis.X (hid_get_data buf sc.sc_loc_x)]
    else []) ++
    (if sc.sc_flags &&& UTOUCH_FLAG_Y_AXIS ≠ 0 ∧ id = sc.sc_iid_y then
      [PointerEvent.AbsMove Axis.Y (hid_get_data buf sc.sc_loc_y)]
    else []) ++
    (if sc.sc_flags &&& UTOUCH_FLAG_Z_AXIS ≠ 0 ∧ id = sc.sc_iid_z then
      [PointerEvent.RelMove (hid_get_data buf sc.sc_loc_z)]
    else []) ++
    (List.range sc.sc_nbuttons).filterMap (fun i =>
      if id = sc.sc_iid_btn i then
        some (PointerEvent.Button i (hid_get_data buf (sc.sc_loc_btn i)))
      else none), ?_, ?_⟩
  · simp [utouch_decode_body, List.append_assoc]
  · intro e he
    simp only [List.mem_append] at he
    rcases he with (((h1 | h2) | h3) | h4)
    · split at h1 <;> simp_all
    · split at h2 <;> simp_all
    · split at h3 <;> simp_all
    · rw [List.mem_filterMap] at h4
      obtain ⟨i, _, hi⟩ := h4
      split at hi
      · rw [Option.some.injEq] at hi
        subst hi
        simp
      · cases hi

/-- Decoding a report and decoding its first UTOUCH_BUFFER_MAX bytes
agree, for reports of every length. -/
theorem utouch_decode_take (sc : utouch_softc) (r : List Nat) :
    utouch_decode sc r = utouch_decode sc (r.take UTOUCH_BUFFER_MAX) := by
  by_cases h64 : r.length ≤ UTOUCH_BUFFER_MAX
  · rw [List.take_of_length_le h64]
  · have hl : r.length > UTOUCH_BUFFER_MAX := by omega
    have hl2 : (r.take UTOUCH_BUFFER_MAX).length = UTOUCH_BUFFER_MAX := by
      rw [List.length_take]
      omega
    simp only [utouch_decode, hl2, if_pos hl, List.take_take, min_self,
      lt_irrefl, if_false]

/-!
Example device states and descriptors for concrete evaluations.
-/

/-- A capability set whose only nonzero report ID belongs to the wheel:
wheel present, report ID 1, an 8-bit field at bit offset 0. -/
def scZonly : utouch_softc :=
  { utouch_softc_init with
    sc_flags := UTOUCH_FLAG_Z_AXIS
    sc_iid_z := 1
    sc_loc_z := ⟨0, 8, 1⟩ }

/-- A capability set using a report ID on the X axis: X present, report
ID 1, an 8-bit field at bit offset 0. -/
def scXid : utouch_softc :=
  { utouch_softc_init with
    sc_flags := UTOUCH_FLAG_X_AXIS
    sc_iid_x := 1
    sc_loc_x := ⟨0, 8, 1⟩ }

/-!
Claims C2, C3, C8, C9 about the report decoder.
-/

/-- C2 (counterexample): in the capability set scZonly the wheel carries
the nonzero report ID 1 while the X and Y report IDs are zero; on report
bytes 1, 5 the decoder does not consume the report-ID byte — it emits
only the sync event, although consuming byte 1 as the match key would
have matched the wheel and emitted its relative move of value 5. -/
theorem decode_wheel_report_id_not_consumed :
    scZonly.sc_iid_z ≠ 0 ∧ scZonly.sc_iid_x = 0 ∧ scZonly.sc_iid_y = 0 ∧
      utouch_decode scZonly [1, 5] = [PointerEvent.Sync] ∧
      utouch_decode_body scZonly 1 [5] =
        [PointerEvent.RelMove 5, PointerEvent.Sync] := by
  decide

/-- C2 (amended): the decoder consumes the first byte of a non-empty
report as the Report ID — advancing the effective buffer by one byte —
if and only if the X axis or the Y axis capability has a nonzero
report_id; a nonzero wheel or button report_id alone does not trigger
consumption and the match key stays 0. -/
theorem decode_report_id_consumption (sc : utouch_softc) (r : List Nat)
    (h : 0 < r.length) :
    utouch_decode sc r =
      if 0 < sc.sc_iid_x ∨ 0 < sc.sc_iid_y then
        utouch_decode_body sc ((r.take UTOUCH_BUFFER_MAX).headD 0)
          (r.take UTOUCH_BUFFER_MAX).tail
      else utouch_decode_body sc 0 (r.take UTOUCH_BUFFER_MAX) :=
  utouch_decode_eq_body sc r h

/-- C2 (witness): the amended consumption rule at the concrete capability
set scXid and report bytes 1, 7. -/
theorem decode_report_id_consumption_witness :
    utouch_decode scXid [1, 7] =
      if 0 < scXid.sc_iid_x ∨ 0 < scXid.sc_iid_y then
        utouch_decode_body scXid (([1, 7].take UTOUCH_BUFFER_MAX).headD 0)
          ([1, 7].take UTOUCH_BUFFER_MAX).tail
      else utouch_decode_body scXid 0 ([1, 7].take UTOUCH_BUFFER_MAX) :=
  decode_report_id_consumption scXid [1, 7] (by decide)

/-- C3 (counterexample): the zero capability set yields no data event on
the one-byte report 0, yet the decoder still emits a sync event — sync
is not conditional on a data event having been produced. -/
theorem decode_sync_without_data_events :
    utouch_decode utouch_softc_init [0] = [PointerEvent.Sync] := by
  decide

/-- C3 (amended): for every capability set and every non-empty report the
decoder emits exactly one sync event, as the final event, whether or not
any data event was produced; only a zero-length report suppresses it. -/
theorem decode_sync_terminates_nonempty (sc : utouch_softc) (r : List Nat)
    (h : 0 < r.length) :
    ∃ evs, utouch_decode sc r = evs ++ [PointerEvent.Sync] ∧
      ∀ e ∈ evs, e ≠ PointerEvent.Sync := by
  rw [utouch_decode_eq_body sc r h]
  split
  · exact utouch_decode_body_shape sc _ _
  · exact utouch_decode_body_shape sc 0 _

/-- C3 (witness): the amended sync rule at the concrete capability set
scZonly and the one-byte report 9. -/
theorem decode_sync_terminates_nonempty_witness :
    ∃ evs, utouch_decode scZonly [9] = evs ++ [PointerEvent.Sync] ∧
      ∀ e ∈ evs, e ≠ PointerEvent.Sync :=
  decode_sync_terminates_nonempty scZonly [9] (by decide)

/-- C8: a report longer than the UTOUCH_BUFFER_MAX bounce buffer decodes
exactly as its first UTOUCH_BUFFER_MAX bytes do; trailing bytes are
discarded and never cause a failure. -/
theorem decode_truncates_oversized_report (sc : utouch_softc)
    (r : List Nat) (_h : UTOUCH_BUFFER_MAX < r.length) :
    utouch_decode sc r = utouch_decode sc (r.take UTOUCH_BUFFER_MAX) :=
  utouch_decode_take sc r

/-- C8 (witness): a 100-byte report decodes identically to its first
UTOUCH_BUFFER_MAX bytes, at the concrete capability set scXid. -/
theorem decode_truncates_oversized_report_witness :
    utouch_decode scXid (List.replicate 100 3) =
      utouch_decode scXid ((List.replicate 100 3).take UTOUCH_BUFFER_MAX) :=
  decode_truncates_oversized_report scXid (List.replicate 100 3) (by decide)

/-- C9: a zero-length report decodes to the empty event sequence for
every capability set — no data events and no sync. -/
theorem decode_empty_report_no_events (sc : utouch_softc) :
    utouch_decode sc [] = [] := rfl

/-!
Scanner lemmas: the found counter counts the eligible X and Y fields in
mouse-collection scope.
-/

/-- The scanner loop adds to the incoming found counter one count per
eligible X field and one per eligible Y field among the inputs in
mouse-collection scope at the current depth. -/
theorem hid_test_loop_counts (items : List hid_item) :
    ∀ (mdepth found : Nat),
      utouch_hid_test_loop items mdepth found =
        found + ((mouseScopeInputs items mdepth).filter eligX).length +
          ((mouseScopeInputs items mdepth).filter eligY).length := by
  induction items with
  | nil =>
    intro d f
    simp [utouch_hid_test_loop, mouseScopeInputs]
  | cons hi rest ih =>
    intro d f
    cases hk : hi.kind <;>
      simp only [utouch_hid_test_loop, mouseScopeInputs, hk]
    · by_cases hd : d = 0
      · by_cases hm : hi.collection = 1 ∧
            hi.usage = HID_USAGE2 HUP_GENERIC_DESKTOP HUG_MOUSE
        · simp [hd, hm, ih]
        · simp [hd, hm, ih]
      · simp [hd, ih]
    · by_cases hd : d = 0
      · simp [hd, ih]
      · simp [hd, ih]
    · by_cases hd : d = 0
      · simp [hd, ih]
      · by_cases hx : eligX hi <;> by_cases hy : eligY hi <;>
          simp [hd, hx, hy, List.filter_cons, ih] <;> omega

/-!
Extractor lemmas: the main loop is a fold of the per-input overwrite over
the inputs in mouse-collection scope.
-/

/-- The extractor's main loop equals a left fold of the per-input
overwrite step over the inputs in mouse-collection scope: it walks the
same depth automaton as the scanner. -/
theorem hid_parse_loop_eq_foldl (items : List hid_item) :
    ∀ (mdepth : Nat) (sc : utouch_softc),
      utouch_hid_parse_loop items mdepth sc =
        (mouseScopeInputs items mdepth).foldl utouch_parse_input sc := by
  induction items with
  | nil =>
    intro d sc
    simp [utouch_hid_parse_loop, mouseScopeInputs]
  | cons hi rest ih =>
    intro d sc
    cases hk : hi.kind <;>
      simp only [utouch_hid_parse_loop, mouseScopeInputs, hk]
    · by_cases hd : d = 0
      · by_cases hm : hi.collection = 1 ∧
            hi.usage = HID_USAGE2 HUP_GENERIC_DESKTOP HUG_MOUSE
        · simp [hd, hm, ih]
        · simp [hd, hm, ih]
      · simp [hd, ih]
    · by_cases hd : d = 0
      · simp [hd, ih]
      · simp [hd, ih]
    · by_cases hd : d = 0
      · simp [hd, ih]
      · simp [hd, ih, List.foldl_cons]

/-!
Example descriptor items.
-/

/-- A top-level application collection open with the mouse usage. -/
def exMouseOpen : hid_item :=
  { kind := HidKind.collection, collection := 1,
    usage := HID_USAGE2 HUP_GENERIC_DESKTOP HUG_MOUSE, flags := 0,
    report_ID := 0, logical_minimum := 0, logical_maximum := 0,
    loc := loc_zero, res := 0 }

/-- A collection close item. -/
def exClose : hid_item :=
  { kind := HidKind.endcollection, collection := 0, usage := 0, flags := 0,
    report_ID := 0, logical_minimum := 0, logical_maximum := 0,
    loc := loc_zero, res := 0 }

/-- An input-field item with the given usage, flags, bit position and
size, logical range and report ID. -/
def exInput (u fl pos sz : Nat) (lo hi : Int) (rid : Nat) : hid_item :=
  { kind := HidKind.input, collection := 0, usage := u, flags := fl,
    report_ID := rid, logical_minimum := lo, logical_maximum := hi,
    loc := ⟨pos, sz, 1⟩, res := 0 }

/-- A descriptor whose mouse collection holds one eligible X field and no
Y field at all. -/
def exOnlyX : List hid_item :=
  [exMouseOpen,
   exInput (HID_USAGE2 HUP_GENERIC_DESKTOP HUG_X) 2 8 8 0 4095 0,
   exClose]

/-!
Claim C1 about the capability scanner.
-/

/-- C1 (counterexample): on a descriptor whose mouse collection holds an
eligible X field but no eligible Y field, utouch_hid_test returns 1 —
nonzero, so the probe gate passes — although an eligible Y field is
missing; the claimed false return does not happen. -/
theorem hid_test_nonzero_without_y :
    utouch_hid_test exOnlyX = 1 ∧ eligibleYFields exOnlyX = [] := by
  decide

/-- C1 (amended): utouch_hid_test returns the number of eligible X input
fields plus the number of eligible Y input fields inside mouse-collection
scope; the probe gate, which passes on any nonzero return, therefore
passes if and only if at least one eligible X field or at least one
eligible Y field is present — not only when both are. -/
theorem hid_test_counts_eligible_fields (items : List hid_item) :
    utouch_hid_test items =
      (eligibleXFields items).length + (eligibleYFields items).length := by
  rw [utouch_hid_test, hid_test_loop_counts]
  simp [eligibleXFields, eligibleYFields]

/-!
Bit-level helpers for the sc_flags bitmask.
-/

/-- Bit i of the literal 1 (the X-axis flag). -/
theorem testBit_one_eq (i : Nat) : Nat.testBit 1 i = decide (i = 0) := by
  cases i with
  | zero => decide
  | succ j =>
    rw [Nat.testBit_succ]
    simp [Nat.zero_testBit]

/-- Bit i of the literal 2 (the Y-axis flag). -/
theorem testBit_two_eq (i : Nat) : Nat.testBit 2 i = decide (i = 1) := by
  cases i with
  | zero => decide
  | succ j =>
    rw [Nat.testBit_succ]
    show Nat.testBit 1 j = decide (j + 1 = 1)
    rw [testBit_one_eq, decide_eq_decide]
    omega

/-- Bit i of the literal 4 (the Z-axis flag). -/
theorem testBit_four_eq (i : Nat) : Nat.testBit 4 i = decide (i = 2) := by
  cases i with
  | zero => decide
  | succ j =>
    rw [Nat.testBit_succ]
    show Nat.testBit 2 j = decide (j + 1 = 2)
    rw [testBit_two_eq, decide_eq_decide]
    omega

/-!
Per-input step lemmas for the extractor's main loop.
-/

/-- The X slot after one input step: overwritten exactly when the item is
an eligible X field. -/
theorem parse_input_x_fields (sc : utouch_softc) (hi : hid_item) :
    (utouch_parse_input sc hi).sc_loc_x =
        (if eligX hi then hi.loc else sc.sc_loc_x) ∧
      (utouch_parse_input sc hi).sc_iid_x =
        (if eligX hi then hi.report_ID else sc.sc_iid_x) ∧
      (utouch_parse_input sc hi).sc_ai_x =
        (if eligX hi then ⟨hi.logical_minimum, hi.logical_maximum, hi.res⟩
          else sc.sc_ai_x) := by
  unfold utouch_parse_input
  by_cases hx : eligX hi <;> by_cases hy : eligY hi <;> simp [hx, hy]

/-- The Y slot after one input step: overwritten exactly when the item is
an eligible Y field. -/
theorem parse_input_y_fields (sc : utouch_softc) (hi : hid_item) :
    (utouch_parse_input sc hi).sc_loc_y =
        (if eligY hi then hi.loc else sc.sc_loc_y) ∧
      (utouch_parse_input sc hi).sc_iid_y =
        (if eligY hi then hi.report_ID else sc.sc_iid_y) ∧
      (utouch_parse_input sc hi).sc_ai_y =
        (if eligY hi then ⟨hi.logical_minimum, hi.logical_maximum, hi.res⟩
          else sc.sc_ai_y) := by
  unfold utouch_parse_input
  by_cases hx : eligX hi <;> by_cases hy : eligY hi <;> simp [hx, hy]

/-- One input step never touches the wheel slot, the button slots or the
button count. -/
theorem parse_input_preserves (sc : utouch_softc) (hi : hid_item) :
    (utouch_parse_input sc hi).sc_loc_z = sc.sc_loc_z ∧
      (utouch_parse_input sc hi).sc_iid_z = sc.sc_iid_z ∧
      (utouch_parse_input sc hi).sc_loc_btn = sc.sc_loc_btn ∧
      (utouch_parse_input sc hi).sc_iid_btn = sc.sc_iid_btn ∧
      (utouch_parse_input sc hi).sc_nbuttons = sc.sc_nbuttons := by
  unfold utouch_parse_input
  by_cases hx : eligX hi <;> by_cases hy : eligY hi <;> simp [hx, hy]

/-- The flag word after one input step: the X bit is ORed in on an
eligible X field and the Y bit on an eligible Y field. -/
theorem parse_input_flags (sc : utouch_softc) (hi : hid_item) :
    (utouch_parse_input sc hi).sc_flags =
      sc.sc_flags ||| (if eligX hi then UTOUCH_FLAG_X_AXIS else 0) |||
        (if eligY hi then UTOUCH_FLAG_Y_AXIS else 0) := by
  unfold utouch_parse_input
  by_cases hx : eligX hi <;> by_cases hy : eligY hi <;> simp [hx, hy]

/-!
Fold lemmas over the scope inputs.
-/

/-- A fold of the input step never touches the wheel slot, the button
slots or the button count. -/
theorem foldl_parse_input_preserves (l : List hid_item) :
    ∀ sc : utouch_softc,
      (l.foldl utouch_parse_input sc).sc_loc_z = sc.sc_loc_z ∧
        (l.foldl utouch_parse_input sc).sc_iid_z = sc.sc_iid_z ∧
        (l.foldl utouch_parse_input sc).sc_loc_btn = sc.sc_loc_btn ∧
        (l.foldl utouch_parse_input sc).sc_iid_btn = sc.sc_iid_btn ∧
        (l.foldl utouch_parse_input sc).sc_nbuttons = sc.sc_nbuttons := by
  induction l with
  | nil => intro sc; simp
  | cons hi l ih =>
    intro sc
    rw [List.foldl_cons]
    obtain ⟨h1, h2, h3, h4, h5⟩ := ih (utouch_parse_input sc hi)
    obtain ⟨g1, g2, g3, g4, g5⟩ := parse_input_preserves sc hi
    exact ⟨h1.trans g1, h2.trans g2, h3.trans g3, h4.trans g4, h5.trans g5⟩

/-- Bit i of the flag word after folding the input step: the incoming
bit, ORed with the X bit when an eligible X field occurs in the list and
with the Y bit when an eligible Y field does. -/
theorem foldl_parse_input_flags (l : List hid_item) :
    ∀ (sc : utouch_softc) (i : Nat),
      ((l.foldl utouch_parse_input sc).sc_flags).testBit i =
        (sc.sc_flags.testBit i ||
          (decide (i = 0) && decide (l.filter eligX ≠ [])) ||
          (decide (i = 1) && decide (l.filter eligY ≠ []))) := by
  induction l with
  | nil => intro sc i; simp
  | cons hi l ih =>
    intro sc i
    rw [List.foldl_cons, ih, parse_input_flags]
    by_cases hx : eligX hi <;> by_cases hy : eligY hi <;>
      simp only [hx, hy, List.filter_cons, eq_self_iff_true, if_true,
        Bool.false_eq_true, if_false, Nat.testBit_or, UTOUCH_FLAG_X_AXIS,
        UTOUCH_FLAG_Y_AXIS, testBit_one_eq, testBit_two_eq,
        Nat.zero_testBit] <;>
      rw [Bool.eq_iff_iff] <;>
      simp only [Bool.or_eq_true, Bool.and_eq_true, decide_eq_true_eq,
        Bool.false_eq_true, false_or, or_false] <;>
      constructor <;> intro h <;> tauto

/-- The X slot after folding the input step: the last eligible X field of
the list wins; with none, the incoming slot is kept. -/
theorem foldl_parse_input_x (l : List hid_item) :
    ∀ sc : utouch_softc,
      match (l.filter eligX).getLast? with
      | none =>
        (l.foldl utouch_parse_input sc).sc_loc_x = sc.sc_loc_x ∧
          (l.foldl utouch_parse_input sc).sc_iid_x = sc.sc_iid_x ∧
          (l.foldl utouch_parse_input sc).sc_ai_x = sc.sc_ai_x
      | some hi =>
        (l.foldl utouch_parse_input sc).sc_loc_x = hi.loc ∧
          (l.foldl utouch_parse_input sc).sc_iid_x = hi.report_ID ∧
          (l.foldl utouch_parse_input sc).sc_ai_x =
            ⟨hi.logical_minimum, hi.logical_maximum, hi.res⟩ := by
  induction l with
  | nil => intro sc; simp
  | cons hi l ih =>
    intro sc
    obtain ⟨g1, g2, g3⟩ := parse_input_x_fields sc hi
    rw [List.filter_cons]
    by_cases hx : eligX hi
    · rw [if_pos hx]
      rw [if_pos hx] at g1 g2 g3
      cases hfl : l.filter eligX with
      | nil =>
        have h := ih (utouch_parse_input sc hi)
        rw [hfl] at h
        simp only [List.getLast?_nil] at h
        simp only [List.getLast?_singleton]
        rw [List.foldl_cons]
        exact ⟨h.1.trans g1, h.2.1.trans g2, h.2.2.trans g3⟩
      | cons a l2 =>
        have h := ih (utouch_parse_input sc hi)
        rw [hfl] at h
        rw [List.getLast?_cons_cons, List.foldl_cons]
        exact h
    · rw [if_neg hx]
      rw [if_neg hx] at g1 g2 g3
      have h := ih (utouch_parse_input sc hi)
      cases hfl : (l.filter eligX).getLast? with
      | none =>
        rw [hfl] at h
        rw [List.foldl_cons]
        exact ⟨h.1.trans g1, h.2.1.trans g2, h.2.2.trans g3⟩
      | some hj =>
        rw [hfl] at h
        rw [List.foldl_cons]
        exact h

/-- The Y slot after folding the input step: the last eligible Y field of
the list wins; with none, the incoming slot is kept. -/
theorem foldl_parse_input_y (l : List hid_item) :
    ∀ sc : utouch_softc,
      match (l.filter eligY).getLast? with
      | none =>
        (l.foldl utouch_parse_input sc).sc_loc_y = sc.sc_loc_y ∧
          (l.foldl utouch_parse_input sc).sc_iid_y = sc.sc_iid_y ∧
          (l.foldl utouch_parse_input sc).sc_ai_y = sc.sc_ai_y
      | some hi =>
        (l.foldl utouch_parse_input sc).sc_loc_y = hi.loc ∧
          (l.foldl utouch_parse_input sc).sc_iid_y = hi.report_ID ∧
          (l.foldl utouch_parse_input sc).sc_ai_y =
            ⟨hi.logical_minimum, hi.logical_maximum, hi.res⟩ := by
  induction l with
  | nil => intro sc; simp
  | cons hi l ih =>
    intro sc
    obtain ⟨g1, g2, g3⟩ := parse_input_y_fields sc hi
    rw [List.filter_cons]
    by_cases hy : eligY hi
    · rw [if_pos hy]
      rw [if_pos hy] at g1 g2 g3
      cases hfl : l.filter eligY with
      | nil =>
        have h := ih (utouch_parse_input sc hi)
        rw [hfl] at h
        simp only [List.getLast?_nil] at h
        simp only [List.getLast?_singleton]
        rw [List.foldl_cons]
        exact ⟨h.1.trans g1, h.2.1.trans g2, h.2.2.trans g3⟩
      | cons a l2 =>
        have h := ih (utouch_parse_input sc hi)
        rw [hfl] at h
        rw [List.getLast?_cons_cons, List.foldl_cons]
        exact h
    · rw [if_neg hy]
      rw [if_neg hy] at g1 g2 g3
      have h := ih (utouch_parse_input sc hi)
      cases hfl : (l.filter eligY).getLast? with
      | none =>
        rw [hfl] at h
        rw [List.foldl_cons]
        exact ⟨h.1.trans g1, h.2.1.trans g2, h.2.2.trans g3⟩
      | some hj =>
        rw [hfl] at h
        rw [List.foldl_cons]
        exact h

/-- A bitwise or of naturals is zero exactly when both sides are. -/
theorem nat_or_eq_zero (a b : Nat) : a ||| b = 0 ↔ a = 0 ∧ b = 0 := by
  constructor
  · intro h
    have ha : ∀ i, a.testBit i = false := by
      intro i
      have h2 := congrArg (fun n => n.testBit i) h
      simp only [Nat.testBit_or, Nat.zero_testBit, Bool.or_eq_false_iff] at h2
      exact h2.1
    have hb : ∀ i, b.testBit i = false := by
      intro i
      have h2 := congrArg (fun n => n.testBit i) h
      simp only [Nat.testBit_or, Nat.zero_testBit, Bool.or_eq_false_iff] at h2
      exact h2.2
    constructor
    · apply Nat.eq_of_testBit_eq
      intro i
      rw [ha i, Nat.zero_testBit]
    · apply Nat.eq_of_testBit_eq
      intro i
      rw [hb i, Nat.zero_testBit]
  · rintro ⟨rfl, rfl⟩
    rfl

/-- Testing the X flag of a word is testing its bit 0. -/
theorem and_flag_x_ne (f : Nat) :
    f &&& UTOUCH_FLAG_X_AXIS ≠ 0 ↔ f.testBit 0 = true := by
  rw [show UTOUCH_FLAG_X_AXIS = 2 ^ 0 from rfl, Nat.and_two_pow]
  cases h : f.testBit 0 <;> simp

/-- Testing the Y flag of a word is testing its bit 1. -/
theorem and_flag_y_ne (f : Nat) :
    f &&& UTOUCH_FLAG_Y_AXIS ≠ 0 ↔ f.testBit 1 = true := by
  rw [show UTOUCH_FLAG_Y_AXIS = 2 ^ 1 from rfl, Nat.and_two_pow]
  cases h : f.testBit 1 <;> simp

/-- Testing the Z flag of a word is testing its bit 2. -/
theorem and_flag_z_ne (f : Nat) :
    f &&& UTOUCH_FLAG_Z_AXIS ≠ 0 ↔ f.testBit 2 = true := by
  rw [show UTOUCH_FLAG_Z_AXIS = 2 ^ 2 from rfl, Nat.and_two_pow]
  cases h : f.testBit 2 <;> simp

/-!
Wheel-pass lemmas.
-/

/-- The wheel pass never touches the X/Y slots, the button slots or the
button count. -/
theorem parse_wheel_preserves (items : List hid_item) (sc : utouch_softc) :
    (utouch_parse_wheel items sc).sc_loc_x = sc.sc_loc_x ∧
      (utouch_parse_wheel items sc).sc_iid_x = sc.sc_iid_x ∧
      (utouch_parse_wheel items sc).sc_ai_x = sc.sc_ai_x ∧
      (utouch_parse_wheel items sc).sc_loc_y = sc.sc_loc_y ∧
      (utouch_parse_wheel items sc).sc_iid_y = sc.sc_iid_y ∧
      (utouch_parse_wheel items sc).sc_ai_y = sc.sc_ai_y ∧
      (utouch_parse_wheel items sc).sc_loc_btn = sc.sc_loc_btn ∧
      (utouch_parse_wheel items sc).sc_iid_btn = sc.sc_iid_btn ∧
      (utouch_parse_wheel items sc).sc_nbuttons = sc.sc_nbuttons := by
  unfold utouch_parse_wheel
  rcases hw : hid_locate items (HID_USAGE2 HUP_GENERIC_DESKTOP HUG_WHEEL)
      with _ | hi
  · rcases ht : hid_locate items (HID_USAGE2 HUP_GENERIC_DESKTOP HUG_TWHEEL)
        with _ | hi
    · simp
    · by_cases hv : hi.flags &&& HIO_VARIABLE ≠ 0 <;> simp [hv]
  · by_cases hv : hi.flags &&& HIO_VARIABLE ≠ 0 <;> simp [hv]

/-- The flag word after the wheel pass: the Z bit is ORed in exactly when
the located wheel (or fallback tilt-wheel) field carries the variable
flag. -/
theorem parse_wheel_flags (items : List hid_item) (sc : utouch_softc) :
    (utouch_parse_wheel items sc).sc_flags =
      if wheelVariable items then sc.sc_flags ||| UTOUCH_FLAG_Z_AXIS
      else sc.sc_flags := by
  cases hwv : wheelVariable items
  · unfold wheelVariable at hwv
    simp only [hwv, Bool.false_eq_true, if_false]
    unfold utouch_parse_wheel
    rcases hw : hid_locate items (HID_USAGE2 HUP_GENERIC_DESKTOP HUG_WHEEL)
        with _ | hi
    · rw [hw] at hwv
      rcases ht : hid_locate items (HID_USAGE2 HUP_GENERIC_DESKTOP HUG_TWHEEL)
          with _ | hi
      · rfl
      · rw [ht] at hwv
        have hv : ¬hi.flags &&& HIO_VARIABLE ≠ 0 := by simpa using hwv
        simp [hv]
    · rw [hw] at hwv
      have hv : ¬hi.flags &&& HIO_VARIABLE ≠ 0 := by simpa using hwv
      simp [hv]
  · unfold wheelVariable at hwv
    simp only [hwv, if_true]
    unfold utouch_parse_wheel
    rcases hw : hid_locate items (HID_USAGE2 HUP_GENERIC_DESKTOP HUG_WHEEL)
        with _ | hi
    · rw [hw] at hwv
      rcases ht : hid_locate items (HID_USAGE2 HUP_GENERIC_DESKTOP HUG_TWHEEL)
          with _ | hi
      · rw [ht] at hwv
        cases hwv
      · rw [ht] at hwv
        have hv : hi.flags &&& HIO_VARIABLE ≠ 0 := by simpa using hwv
        simp [hv]
    · rw [hw] at hwv
      have hv : hi.flags &&& HIO_VARIABLE ≠ 0 := by simpa using hwv
      simp [hv]

/-- The wheel slot after the wheel pass: the located wheel field wins,
the tilt-wheel field only when no wheel field exists, and with neither
the slot is untouched. -/
theorem parse_wheel_z (items : List hid_item) (sc : utouch_softc) :
    (∀ hi, hid_locate items (HID_USAGE2 HUP_GENERIC_DESKTOP HUG_WHEEL) =
        some hi →
      (utouch_parse_wheel items sc).sc_loc_z = hi.loc ∧
        (utouch_parse_wheel items sc).sc_iid_z = hi.report_ID) ∧
      (hid_locate items (HID_USAGE2 HUP_GENERIC_DESKTOP HUG_WHEEL) = none →
        ∀ hi, hid_locate items (HID_USAGE2 HUP_GENERIC_DESKTOP HUG_TWHEEL) =
          some hi →
        (utouch_parse_wheel items sc).sc_loc_z = hi.loc ∧
          (utouch_parse_wheel items sc).sc_iid_z = hi.report_ID) ∧
      (hid_locate items (HID_USAGE2 HUP_GENERIC_DESKTOP HUG_WHEEL) = none →
        hid_locate items (HID_USAGE2 HUP_GENERIC_DESKTOP HUG_TWHEEL) =
          none →
        (utouch_parse_wheel items sc).sc_loc_z = sc.sc_loc_z ∧
          (utouch_parse_wheel items sc).sc_iid_z = sc.sc_iid_z) := by
  unfold utouch_parse_wheel
  rcases hw : hid_locate items (HID_USAGE2 HUP_GENERIC_DESKTOP HUG_WHEEL)
      with _ | hi
  · rcases ht : hid_locate items (HID_USAGE2 HUP_GENERIC_DESKTOP HUG_TWHEEL)
        with _ | hi
    · simp
    · by_cases hv : hi.flags &&& HIO_VARIABLE ≠ 0 <;> simp [hv]
  · by_cases hv : hi.flags &&& HIO_VARIABLE ≠ 0 <;> simp [hv]

/-!
Button-pass lemmas.
-/

/-- Unfolding equation for the button loop with no fuel. -/
theorem parse_btns_zero_eq (items : List hid_item) (i : Nat)
    (sc : utouch_softc) :
    utouch_parse_btns items i 0 sc = { sc with sc_nbuttons := i } := rfl

/-- Unfolding equation for a successful button lookup. -/
theorem parse_btns_succ_some (items : List hid_item) (i fuel : Nat)
    (sc : utouch_softc) (hi : hid_item)
    (h : hid_locate items (HID_USAGE2 HUP_BUTTON (i + 1)) = some hi) :
    utouch_parse_btns items i (fuel + 1) sc =
      utouch_parse_btns items (i + 1) fuel
        { sc with
          sc_loc_btn := fun j => if j = i then hi.loc else sc.sc_loc_btn j
          sc_iid_btn := fun j => if j = i then hi.report_ID
            else sc.sc_iid_btn j } := by
  conv_lhs => rw [utouch_parse_btns]
  rw [h]

/-- Unfolding equation for a failed button lookup. -/
theorem parse_btns_succ_none (items : List hid_item) (i fuel : Nat)
    (sc : utouch_softc)
    (h : hid_locate items (HID_USAGE2 HUP_BUTTON (i + 1)) = none) :
    utouch_parse_btns items i (fuel + 1) sc = { sc with sc_nbuttons := i } := by
  conv_lhs => rw [utouch_parse_btns]
  rw [h]

/-- The button loop never touches the axis slots, the wheel slot or the
flag word. -/
theorem parse_btns_preserves (items : List hid_item) :
    ∀ (fuel i : Nat) (sc : utouch_softc),
      (utouch_parse_btns items i fuel sc).sc_loc_x = sc.sc_loc_x ∧
        (utouch_parse_btns items i fuel sc).sc_iid_x = sc.sc_iid_x ∧
        (utouch_parse_btns items i fuel sc).sc_ai_x = sc.sc_ai_x ∧
        (utouch_parse_btns items i fuel sc).sc_loc_y = sc.sc_loc_y ∧
        (utouch_parse_btns items i fuel sc).sc_iid_y = sc.sc_iid_y ∧
        (utouch_parse_btns items i fuel sc).sc_ai_y = sc.sc_ai_y ∧
        (utouch_parse_btns items i fuel sc).sc_loc_z = sc.sc_loc_z ∧
        (utouch_parse_btns items i fuel sc).sc_iid_z = sc.sc_iid_z ∧
        (utouch_parse_btns items i fuel sc).sc_flags = sc.sc_flags := by
  intro fuel
  induction fuel with
  | zero =>
    intro i sc
    simp [parse_btns_zero_eq]
  | succ fuel ih =>
    intro i sc
    rcases h : hid_locate items (HID_USAGE2 HUP_BUTTON (i + 1)) with _ | hi
    · simp [parse_btns_succ_none items i fuel sc h]
    · rw [parse_btns_succ_some items i fuel sc hi h]
      exact ih (i + 1) _

/-- The button loop never writes a slot below its starting index. -/
theorem parse_btns_lower (items : List hid_item) :
    ∀ (fuel i : Nat) (sc : utouch_softc) (j : Nat), j < i →
      (utouch_parse_btns items i fuel sc).sc_loc_btn j = sc.sc_loc_btn j ∧
        (utouch_parse_btns items i fuel sc).sc_iid_btn j =
          sc.sc_iid_btn j := by
  intro fuel
  induction fuel with
  | zero =>
    intro i sc j _
    simp [parse_btns_zero_eq]
  | succ fuel ih =>
    intro i sc j hj
    rcases h : hid_locate items (HID_USAGE2 HUP_BUTTON (i + 1)) with _ | hi
    · simp [parse_btns_succ_none items i fuel sc h]
    · rw [parse_btns_succ_some items i fuel sc hi h]
      have hne : j ≠ i := by omega
      obtain ⟨h1, h2⟩ := ih (i + 1) _ j (by omega)
      rw [h1, h2]
      simp [hne]

/-- The button count ends between the starting index and the starting
index plus the remaining fuel. -/
theorem parse_btns_nb_range (items : List hid_item) :
    ∀ (fuel i : Nat) (sc : utouch_softc),
      i ≤ (utouch_parse_btns items i fuel sc).sc_nbuttons ∧
        (utouch_parse_btns items i fuel sc).sc_nbuttons ≤ i + fuel := by
  intro fuel
  induction fuel with
  | zero =>
    intro i sc
    simp [parse_btns_zero_eq]
  | succ fuel ih =>
    intro i sc
    rcases h : hid_locate items (HID_USAGE2 HUP_BUTTON (i + 1)) with _ | hi
    · simp [parse_btns_succ_none items i fuel sc h]
    · rw [parse_btns_succ_some items i fuel sc hi h]
      have := ih (i + 1)
        { sc with
          sc_loc_btn := fun j => if j = i then hi.loc else sc.sc_loc_btn j
          sc_iid_btn := fun j => if j = i then hi.report_ID
            else sc.sc_iid_btn j }
      omega

/-- Every slot below the final button count holds the location and report
ID of the first input field with the matching button usage. -/
theorem parse_btns_slots (items : List hid_item) :
    ∀ (fuel i : Nat) (sc : utouch_softc) (j : Nat), i ≤ j →
      j < (utouch_parse_btns items i fuel sc).sc_nbuttons →
      ∃ hi, hid_locate items (HID_USAGE2 HUP_BUTTON (j + 1)) = some hi ∧
        (utouch_parse_btns items i fuel sc).sc_loc_btn j = hi.loc ∧
        (utouch_parse_btns items i fuel sc).sc_iid_btn j = hi.report_ID := by
  intro fuel
  induction fuel with
  | zero =>
    intro i sc j hij hj
    rw [parse_btns_zero_eq] at hj
    simp at hj
    omega
  | succ fuel ih =>
    intro i sc j hij hj
    rcases h : hid_locate items (HID_USAGE2 HUP_BUTTON (i + 1)) with _ | hi
    · rw [parse_btns_succ_none items i fuel sc h] at hj
      simp at hj
      omega
    · rw [parse_btns_succ_some items i fuel sc hi h] at hj ⊢
      by_cases hji : j = i
      · subst hji
        refine ⟨hi, h, ?_⟩
        obtain ⟨h1, h2⟩ := parse_btns_lower items fuel (j + 1) _ j (by omega)
        rw [h1, h2]
        simp
      · exact ih (i + 1) _ j (by omega) hj

/-- When the loop stops before exhausting its fuel, the usage right after
the final count has no matching field. -/
theorem parse_btns_stop (items : List hid_item) :
    ∀ (fuel i : Nat) (sc : utouch_softc),
      (utouch_parse_btns items i fuel sc).sc_nbuttons < i + fuel →
      hid_locate items
        (HID_USAGE2 HUP_BUTTON
          ((utouch_parse_btns items i fuel sc).sc_nbuttons + 1)) = none := by
  intro fuel
  induction fuel with
  | zero =>
    intro i sc h
    rw [parse_btns_zero_eq] at h
    simp at h
  | succ fuel ih =>
    intro i sc hlt
    rcases h : hid_locate items (HID_USAGE2 HUP_BUTTON (i + 1)) with _ | hi
    · rw [parse_btns_succ_none items i fuel sc h] at hlt ⊢
      exact h
    · rw [parse_btns_succ_some items i fuel sc hi h] at hlt ⊢
      exact ih (i + 1) _ (by omega)

/-- The final count never passes a usage with no matching field: the
loop is bounded by the first gap. -/
theorem parse_btns_gap (items : List hid_item) :
    ∀ (fuel i : Nat) (sc : utouch_softc) (k : Nat), i ≤ k →
      hid_locate items (HID_USAGE2 HUP_BUTTON (k + 1)) = none →
      (utouch_parse_btns items i fuel sc).sc_nbuttons ≤ k := by
  intro fuel
  induction fuel with
  | zero =>
    intro i sc k hik _
    rw [parse_btns_zero_eq]
    exact hik
  | succ fuel ih =>
    intro i sc k hik hk
    rcases h : hid_locate items (HID_USAGE2 HUP_BUTTON (i + 1)) with _ | hi
    · rw [parse_btns_succ_none items i fuel sc h]
      exact hik
    · rw [parse_btns_succ_some items i fuel sc hi h]
      by_cases hki : k = i
      · subst hki
        rw [h] at hk
        cases hk
      · exact ih (i + 1) _ k (by omega) hk

/-!
Composition lemmas on utouch_hid_parse.
-/

/-- Bit i of the flag word utouch_hid_parse produces: the X bit reflects
an eligible X field in scope, the Y bit an eligible Y field, the Z bit a
variable wheel (or tilt-wheel) field; no other bit is ever set. -/
theorem parse_flags_testBit (items : List hid_item) (i : Nat) :
    ((utouch_hid_parse items).sc_flags).testBit i =
      ((decide (i = 0) && decide (eligibleXFields items ≠ [])) ||
        (decide (i = 1) && decide (eligibleYFields items ≠ [])) ||
        (decide (i = 2) && wheelVariable items)) := by
  unfold utouch_hid_parse
  rw [(parse_btns_preserves items UTOUCH_BUTTON_MAX 0 _).2.2.2.2.2.2.2.2]
  rw [parse_wheel_flags]
  rw [hid_parse_loop_eq_foldl]
  cases hwv : wheelVariable items
  · simp only [Bool.false_eq_true, if_false]
    rw [foldl_parse_input_flags]
    simp only [utouch_softc_init, Nat.zero_testBit, Bool.false_or,
      eligibleXFields, eligibleYFields, Bool.and_false, Bool.or_false]
  · simp only [if_true]
    rw [Nat.testBit_or, foldl_parse_input_flags]
    simp only [utouch_softc_init, Nat.zero_testBit, Bool.false_or,
      eligibleXFields, eligibleYFields, Bool.and_true,
      UTOUCH_FLAG_Z_AXIS, testBit_four_eq]

/-- The X slot utouch_hid_parse produces: the last eligible X field in
scope wins; with none, the slot keeps its zero initialization. -/
theorem parse_x_slot (items : List hid_item) :
    match (eligibleXFields items).getLast? with
    | none =>
      (utouch_hid_parse items).sc_loc_x = loc_zero ∧
        (utouch_hid_parse items).sc_iid_x = 0 ∧
        (utouch_hid_parse items).sc_ai_x = ⟨0, 0, 0⟩
    | some hi =>
      (utouch_hid_parse items).sc_loc_x = hi.loc ∧
        (utouch_hid_parse items).sc_iid_x = hi.report_ID ∧
        (utouch_hid_parse items).sc_ai_x =
          ⟨hi.logical_minimum, hi.logical_maximum, hi.res⟩ := by
  have hb := parse_btns_preserves items UTOUCH_BUTTON_MAX 0
    (utouch_parse_wheel items (utouch_hid_parse_loop items 0 utouch_softc_init))
  have hw := parse_wheel_preserves items
    (utouch_hid_parse_loop items 0 utouch_softc_init)
  have hf := foldl_parse_input_x (mouseScopeInputs items 0) utouch_softc_init
  rw [← hid_parse_loop_eq_foldl] at hf
  unfold utouch_hid_parse
  cases hfl : (eligibleXFields items).getLast? with
  | none =>
    rw [eligibleXFields] at hfl
    rw [hfl] at hf
    exact ⟨(hb.1.trans hw.1).trans hf.1, (hb.2.1.trans hw.2.1).trans hf.2.1,
      (hb.2.2.1.trans hw.2.2.1).trans hf.2.2⟩
  | some hi =>
    rw [eligibleXFields] at hfl
    rw [hfl] at hf
    exact ⟨(hb.1.trans hw.1).trans hf.1, (hb.2.1.trans hw.2.1).trans hf.2.1,
      (hb.2.2.1.trans hw.2.2.1).trans hf.2.2⟩

/-- The Y slot utouch_hid_parse produces: the last eligible Y field in
scope wins; with none, the slot keeps its zero initialization. -/
theorem parse_y_slot (items : List hid_item) :
    match (eligibleYFields items).getLast? with
    | none =>
      (utouch_hid_parse items).sc_loc_y = loc_zero ∧
        (utouch_hid_parse items).sc_iid_y = 0 ∧
        (utouch_hid_parse items).sc_ai_y = ⟨0, 0, 0⟩
    | some hi =>
      (utouch_hid_parse items).sc_loc_y = hi.loc ∧
        (utouch_hid_parse items).sc_iid_y = hi.report_ID ∧
        (utouch_hid_parse items).sc_ai_y =
          ⟨hi.logical_minimum, hi.logical_maximum, hi.res⟩ := by
  have hb := parse_btns_preserves items UTOUCH_BUTTON_MAX 0
    (utouch_parse_wheel items (utouch_hid_parse_loop items 0 utouch_softc_init))
  have hw := parse_wheel_preserves items
    (utouch_hid_parse_loop items 0 utouch_softc_init)
  have hf := foldl_parse_input_y (mouseScopeInputs items 0) utouch_softc_init
  rw [← hid_parse_loop_eq_foldl] at hf
  unfold utouch_hid_parse
  cases hfl : (eligibleYFields items).getLast? with
  | none =>
    rw [eligibleYFields] at hfl
    rw [hfl] at hf
    exact ⟨(hb.2.2.2.1.trans hw.2.2.2.1).trans hf.1,
      (hb.2.2.2.2.1.trans hw.2.2.2.2.1).trans hf.2.1,
      (hb.2.2.2.2.2.1.trans hw.2.2.2.2.2.1).trans hf.2.2⟩
  | some hi =>
    rw [eligibleYFields] at hfl
    rw [hfl] at hf
    exact ⟨(hb.2.2.2.1.trans hw.2.2.2.1).trans hf.1,
      (hb.2.2.2.2.1.trans hw.2.2.2.2.1).trans hf.2.1,
      (hb.2.2.2.2.2.1.trans hw.2.2.2.2.2.1).trans hf.2.2⟩

/-!
Claim C10: scanner/extractor agreement.
-/

/-- C10: utouch_hid_test returns nonzero on an item stream exactly when
utouch_hid_parse on the same stream sets the X-axis or the Y-axis
presence flag: both walk the items with the same depth automaton and
eligibility test, so a device passing the probe gate always extracts a
capability set with X or Y present. -/
theorem probe_gate_iff_xy_flag (items : List hid_item) :
    utouch_hid_test items ≠ 0 ↔
      (utouch_hid_parse items).sc_flags &&&
        (UTOUCH_FLAG_X_AXIS ||| UTOUCH_FLAG_Y_AXIS) ≠ 0 := by
  have hbx : (utouch_hid_parse items).sc_flags.testBit 0 = true ↔
      eligibleXFields items ≠ [] := by
    rw [parse_flags_testBit]
    simp
  have hby : (utouch_hid_parse items).sc_flags.testBit 1 = true ↔
      eligibleYFields items ≠ [] := by
    rw [parse_flags_testBit]
    simp
  rw [utouch_hid_test, hid_test_loop_counts, Nat.and_or_distrib_left,
    Ne, Ne, nat_or_eq_zero, not_and_or]
  rw [show ¬((utouch_hid_parse items).sc_flags &&& UTOUCH_FLAG_X_AXIS = 0) ↔
      (utouch_hid_parse items).sc_flags.testBit 0 = true from
    and_flag_x_ne (utouch_hid_parse items).sc_flags]
  rw [show ¬((utouch_hid_parse items).sc_flags &&& UTOUCH_FLAG_Y_AXIS = 0) ↔
      (utouch_hid_parse items).sc_flags.testBit 1 = true from
    and_flag_y_ne (utouch_hid_parse items).sc_flags]
  rw [hbx, hby]
  constructor
  · intro h
    by_cases hxe : eligibleXFields items = []
    · right
      intro hye
      apply h
      have h1 : (List.filter eligX (mouseScopeInputs items 0)).length = 0 := by
        rw [show List.filter eligX (mouseScopeInputs items 0) =
          eligibleXFields items from rfl, hxe]
        rfl
      have h2 : (List.filter eligY (mouseScopeInputs items 0)).length = 0 := by
        rw [show List.filter eligY (mouseScopeInputs items 0) =
          eligibleYFields items from rfl, hye]
        rfl
      omega
    · left
      exact hxe
  · intro h hzero
    rcases h with h | h
    · apply h
      apply List.length_eq_zero.mp
      simp only [eligibleXFields]
      omega
    · apply h
      apply List.length_eq_zero.mp
      simp only [eligibleYFields]
      omega

/-!
Claims C4 and C6 about X/Y extraction.
-/

/-- The eligible X field of the example descriptors. -/
def exXitem : hid_item :=
  exInput (HID_USAGE2 HUP_GENERIC_DESKTOP HUG_X) 2 8 8 0 4095 0

/-- The eligible Y field of the example descriptors. -/
def exYitem : hid_item :=
  exInput (HID_USAGE2 HUP_GENERIC_DESKTOP HUG_Y) 2 16 8 0 2047 0

/-- A descriptor whose mouse collection holds one eligible X and one
eligible Y field. -/
def exXY : List hid_item := [exMouseOpen, exXitem, exYitem, exClose]

/-- C4 (counterexample): the scanner returns nonzero on a descriptor
holding an eligible X field and no Y field, yet extraction leaves the
Y-present flag clear — a nonzero scanner result does not imply both
flags are set. -/
theorem probe_gate_without_y_extracts_no_y :
    utouch_hid_test exOnlyX ≠ 0 ∧
      (utouch_hid_parse exOnlyX).sc_flags &&& UTOUCH_FLAG_Y_AXIS = 0 := by
  decide

/-- C4 (amended): on every descriptor holding at least one eligible X
field and at least one eligible Y field in mouse-collection scope — the
condition the probe was meant to gate on — utouch_hid_parse sets both
presence flags and records the winning (last) eligible fields' declared
logical minima and maxima in the axis information. -/
theorem eligible_xy_implies_extracted (items : List hid_item)
    (hx hy : hid_item)
    (hX : (eligibleXFields items).getLast? = some hx)
    (hY : (eligibleYFields items).getLast? = some hy) :
    (utouch_hid_parse items).sc_flags &&& UTOUCH_FLAG_X_AXIS ≠ 0 ∧
      (utouch_hid_parse items).sc_flags &&& UTOUCH_FLAG_Y_AXIS ≠ 0 ∧
      (utouch_hid_parse items).sc_ai_x.min = hx.logical_minimum ∧
      (utouch_hid_parse items).sc_ai_x.max = hx.logical_maximum ∧
      (utouch_hid_parse items).sc_ai_y.min = hy.logical_minimum ∧
      (utouch_hid_parse items).sc_ai_y.max = hy.logical_maximum := by
  have hxs := parse_x_slot items
  rw [hX] at hxs
  have hys := parse_y_slot items
  rw [hY] at hys
  have hneX : eligibleXFields items ≠ [] := by
    intro he
    rw [he] at hX
    cases hX
  have hneY : eligibleYFields items ≠ [] := by
    intro he
    rw [he] at hY
    cases hY
  refine ⟨?_, ?_, ?_, ?_, ?_, ?_⟩
  · rw [and_flag_x_ne, parse_flags_testBit]
    simp [hneX]
  · rw [and_flag_y_ne, parse_flags_testBit]
    simp [hneY]
  · rw [hxs.2.2]
  · rw [hxs.2.2]
  · rw [hys.2.2]
  · rw [hys.2.2]

/-- C4 (witness): the amended extraction guarantee at the concrete
descriptor exXY: both flags set, X range 0..4095, Y range 0..2047. -/
theorem eligible_xy_implies_extracted_witness :
    (utouch_hid_parse exXY).sc_flags &&& UTOUCH_FLAG_X_AXIS ≠ 0 ∧
      (utouch_hid_parse exXY).sc_flags &&& UTOUCH_FLAG_Y_AXIS ≠ 0 ∧
      (utouch_hid_parse exXY).sc_ai_x.min = 0 ∧
      (utouch_hid_parse exXY).sc_ai_x.max = 4095 ∧
      (utouch_hid_parse exXY).sc_ai_y.min = 0 ∧
      (utouch_hid_parse exXY).sc_ai_y.max = 2047 :=
  eligible_xy_implies_extracted exXY exXitem exYitem (by decide) (by decide)

/-- A second eligible X field, later in descriptor order. -/
def exXitem2 : hid_item :=
  exInput (HID_USAGE2 HUP_GENERIC_DESKTOP HUG_X) 2 24 8 0 1023 1

/-- A second eligible Y field, later in descriptor order. -/
def exYitem2 : hid_item :=
  exInput (HID_USAGE2 HUP_GENERIC_DESKTOP HUG_Y) 2 32 8 0 511 2

/-- A descriptor whose mouse collection holds two eligible X fields and
two eligible Y fields. -/
def exXXYY : List hid_item :=
  [exMouseOpen, exXitem, exYitem, exXitem2, exYitem2, exClose]

/-- C6: with several eligible X (respectively Y) fields in
mouse-collection scope, the extracted slot holds the location, report
ID, logical range and resolution of the last eligible field in
descriptor order — each match overwrites the slot, with no first-match
short-circuit. -/
theorem xy_extraction_last_match_wins (items : List hid_item) :
    (∀ hi, 2 ≤ (eligibleXFields items).length →
      (eligibleXFields items).getLast? = some hi →
      (utouch_hid_parse items).sc_loc_x = hi.loc ∧
        (utouch_hid_parse items).sc_iid_x = hi.report_ID ∧
        (utouch_hid_parse items).sc_ai_x =
          ⟨hi.logical_minimum, hi.logical_maximum, hi.res⟩) ∧
    (∀ hi, 2 ≤ (eligibleYFields items).length →
      (eligibleYFields items).getLast? = some hi →
      (utouch_hid_parse items).sc_loc_y = hi.loc ∧
        (utouch_hid_parse items).sc_iid_y = hi.report_ID ∧
        (utouch_hid_parse items).sc_ai_y =
          ⟨hi.logical_minimum, hi.logical_maximum, hi.res⟩) := by
  constructor
  · intro hi _ hlast
    have hxs := parse_x_slot items
    rw [hlast] at hxs
    exact hxs
  · intro hi _ hlast
    have hys := parse_y_slot items
    rw [hlast] at hys
    exact hys

/-- C6 (witness): on the concrete descriptor exXXYY the extracted X slot
holds the second X field (bit offset 24, report ID 1, range 0..1023) and
the Y slot the second Y field (bit offset 32, report ID 2, range
0..511). -/
theorem xy_extraction_last_match_wins_witness :
    ((utouch_hid_parse exXXYY).sc_loc_x = ⟨24, 8, 1⟩ ∧
      (utouch_hid_parse exXXYY).sc_iid_x = 1 ∧
      (utouch_hid_parse exXXYY).sc_ai_x = ⟨0, 1023, 0⟩) ∧
    ((utouch_hid_parse exXXYY).sc_loc_y = ⟨32, 8, 1⟩ ∧
      (utouch_hid_parse exXXYY).sc_iid_y = 2 ∧
      (utouch_hid_parse exXXYY).sc_ai_y = ⟨0, 511, 0⟩) :=
  ⟨(xy_extraction_last_match_wins exXXYY).1 exXitem2 (by decide) (by decide),
    (xy_extraction_last_match_wins exXXYY).2 exYitem2 (by decide) (by decide)⟩

/-!
Claim C5 about button discovery.
-/

/-- A one-bit button input field with the given usage number, bit
position and report ID. -/
def exBtnItem (n pos rid : Nat) : hid_item :=
  exInput (HID_USAGE2 HUP_BUTTON n) 2 pos 1 0 1 rid

/-- A descriptor carrying button usages 1, 2 and 4 — usage 3 is
absent. -/
def exBtns : List hid_item :=
  [exBtnItem 1 0 0, exBtnItem 2 1 0, exBtnItem 4 3 0]

/-- C5: button discovery is prefix-closed and bounded: at most
UTOUCH_BUTTON_MAX buttons are recorded; recorded index j holds the
location and report ID of the first field with Button usage j+1;
recording stops exactly at the first usage with no matching field, so
the count never passes a gap — if Button usage k+1 is absent, at most k
buttons are recorded even when higher usages exist. -/
theorem button_discovery_prefix_closed (items : List hid_item) :
    (utouch_hid_parse items).sc_nbuttons ≤ UTOUCH_BUTTON_MAX ∧
      (∀ j, j < (utouch_hid_parse items).sc_nbuttons →
        ∃ hi, hid_locate items (HID_USAGE2 HUP_BUTTON (j + 1)) = some hi ∧
          (utouch_hid_parse items).sc_loc_btn j = hi.loc ∧
          (utouch_hid_parse items).sc_iid_btn j = hi.report_ID) ∧
      ((utouch_hid_parse items).sc_nbuttons < UTOUCH_BUTTON_MAX →
        hid_locate items
          (HID_USAGE2 HUP_BUTTON
            ((utouch_hid_parse items).sc_nbuttons + 1)) = none) ∧
      (∀ k, hid_locate items (HID_USAGE2 HUP_BUTTON (k + 1)) = none →
        (utouch_hid_parse items).sc_nbuttons ≤ k) := by
  unfold utouch_hid_parse
  refine ⟨?_, ?_, ?_, ?_⟩
  · have h := (parse_btns_nb_range items UTOUCH_BUTTON_MAX 0
      (utouch_parse_wheel items
        (utouch_hid_parse_loop items 0 utouch_softc_init))).2
    omega
  · intro j hj
    exact parse_btns_slots items UTOUCH_BUTTON_MAX 0 _ j (Nat.zero_le j) hj
  · intro hlt
    have hlt2 : (utouch_parse_btns items 0 UTOUCH_BUTTON_MAX
        (utouch_parse_wheel items
          (utouch_hid_parse_loop items 0 utouch_softc_init))).sc_nbuttons <
        0 + UTOUCH_BUTTON_MAX := by omega
    exact parse_btns_stop items UTOUCH_BUTTON_MAX 0 _ hlt2
  · intro k hk
    exact parse_btns_gap items UTOUCH_BUTTON_MAX 0 _ k (Nat.zero_le k) hk

/-- C5 (witness): the bound and the prefix-closure at the concrete
descriptor exBtns, whose Button usage 3 is absent: no more than 2
buttons are recorded although usage 4 exists. -/
theorem button_discovery_prefix_closed_witness :
    (utouch_hid_parse exBtns).sc_nbuttons ≤ UTOUCH_BUTTON_MAX ∧
      (utouch_hid_parse exBtns).sc_nbuttons ≤ 2 :=
  ⟨(button_discovery_prefix_closed exBtns).1,
    (button_discovery_prefix_closed exBtns).2.2.2 2 (by decide)⟩

/-!
Claim C7 about wheel extraction.
-/

/-- A wheel input field: variable and relative (flags 6), 8-bit, report
ID 3. -/
def exWheelItem : hid_item :=
  exInput (HID_USAGE2 HUP_GENERIC_DESKTOP HUG_WHEEL) 6 0 8 (-127) 127 3

/-- A descriptor carrying only the wheel field. -/
def exWheel : List hid_item := [exWheelItem]

/-- C7: wheel extraction is a first-match lookup with a fallback order:
the generic-desktop wheel usage is consulted before the tilt-wheel
usage, the field found records its location and report ID, and the
wheel-present flag is set exactly when that field's flags include
HIO_VARIABLE — constant or relative bits are not required clear. -/
theorem wheel_extraction_first_match (items : List hid_item) :
    (∀ hi, hid_locate items (HID_USAGE2 HUP_GENERIC_DESKTOP HUG_WHEEL) =
        some hi →
      (utouch_hid_parse items).sc_loc_z = hi.loc ∧
        (utouch_hid_parse items).sc_iid_z = hi.report_ID ∧
        ((utouch_hid_parse items).sc_flags &&& UTOUCH_FLAG_Z_AXIS ≠ 0 ↔
          hi.flags &&& HIO_VARIABLE ≠ 0)) ∧
    (hid_locate items (HID_USAGE2 HUP_GENERIC_DESKTOP HUG_WHEEL) = none →
      ∀ hi, hid_locate items (HID_USAGE2 HUP_GENERIC_DESKTOP HUG_TWHEEL) =
        some hi →
      (utouch_hid_parse items).sc_loc_z = hi.loc ∧
        (utouch_hid_parse items).sc_iid_z = hi.report_ID ∧
        ((utouch_hid_parse items).sc_flags &&& UTOUCH_FLAG_Z_AXIS ≠ 0 ↔
          hi.flags &&& HIO_VARIABLE ≠ 0)) ∧
    (hid_locate items (HID_USAGE2 HUP_GENERIC_DESKTOP HUG_WHEEL) = none →
      hid_locate items (HID_USAGE2 HUP_GENERIC_DESKTOP HUG_TWHEEL) = none →
      (utouch_hid_parse items).sc_flags &&& UTOUCH_FLAG_Z_AXIS = 0) := by
  have hz := parse_wheel_z items (utouch_hid_parse_loop items 0 utouch_softc_init)
  have hb := parse_btns_preserves items UTOUCH_BUTTON_MAX 0
    (utouch_parse_wheel items (utouch_hid_parse_loop items 0 utouch_softc_init))
  have hfl : (utouch_hid_parse items).sc_flags &&& UTOUCH_FLAG_Z_AXIS ≠ 0 ↔
      wheelVariable items = true := by
    rw [and_flag_z_ne, parse_flags_testBit]
    simp
  refine ⟨?_, ?_, ?_⟩
  · intro hi hW
    obtain ⟨hz1, hz2⟩ := hz.1 hi hW
    refine ⟨?_, ?_, ?_⟩
    · exact hb.2.2.2.2.2.2.1.trans hz1
    · exact hb.2.2.2.2.2.2.2.1.trans hz2
    · rw [hfl]
      unfold wheelVariable
      rw [hW]
      simp
  · intro hW hi hT
    obtain ⟨hz1, hz2⟩ := hz.2.1 hW hi hT
    refine ⟨?_, ?_, ?_⟩
    · exact hb.2.2.2.2.2.2.1.trans hz1
    · exact hb.2.2.2.2.2.2.2.1.trans hz2
    · rw [hfl]
      unfold wheelVariable
      rw [hW, hT]
      simp
  · intro hW hT
    have hv : wheelVariable items = false := by
      unfold wheelVariable
      rw [hW, hT]
    by_contra hc
    have hc2 : (utouch_hid_parse items).sc_flags &&& UTOUCH_FLAG_Z_AXIS ≠ 0 :=
      hc
    rw [hfl, hv] at hc2
    cases hc2

/-- C7 (witness): at the concrete descriptor exWheel the wheel field
(variable and relative, report ID 3) is recorded and, its variable bit
being set, the wheel-present flag ends set. -/
theorem wheel_extraction_first_match_witness :
    (utouch_hid_parse exWheel).sc_loc_z = ⟨0, 8, 1⟩ ∧
      (utouch_hid_parse exWheel).sc_iid_z = 3 ∧
      ((utouch_hid_parse exWheel).sc_flags &&& UTOUCH_FLAG_Z_AXIS ≠ 0 ↔
        exWheelItem.flags &&& HIO_VARIABLE ≠ 0) :=
  (wheel_extraction_first_match exWheel).1 exWheelItem (by decide)

end Utouch
